import Mathlib

/-!
Verification of the charlotte remittance-extraction backend.

This file shallowly embeds the text-processing core of the repository:

* `src/backend/edi_preprocessor.py` — the EDI PDF transaction extractor
  (`Transaction`, `parse_page_content`, `split_pages`, `process_file`,
  `_format_date`, `to_dict`), with its regular-expression field table
  implemented as explicit character-list scanners that mirror the Python
  `re` semantics of each concrete pattern;
* `src/backend/alignRx_parser.py` — the AlignRx spreadsheet state machine
  (`parse_excel_report`), with the Azure duplicate lookup abstracted as an
  oracle for the outcome of the `check_if_report_exists` call;
* `src/backend/edi_parser.py` — `EDIParser.parse_edi_file`, with the
  extraction callee and index-lookup services (absent from the sources,
  only called there) abstracted as parameters and oracles.

All definitions are executable; theorems about each claim follow the
definitions.
-/

namespace Charlotte

/-! ## Character utilities

Python string/regex semantics used by the parsers, restricted to the ASCII
range that the report texts use: `\s` and `str.strip()` are modelled by the
six ASCII whitespace characters (the parsers never receive other Unicode
whitespace from these report templates). -/

def isWsC (c : Char) : Bool :=
  c = ' ' || c = '\t' || c = '\n' || c = '\r' || c = '\x0b' || c = '\x0c'

def isDigitC (c : Char) : Bool :=
  48 ≤ c.toNat && c.toNat ≤ 57

def isAlphaC (c : Char) : Bool :=
  (65 ≤ c.toNat && c.toNat ≤ 90) || (97 ≤ c.toNat && c.toNat ≤ 122)

def isAlnumC (c : Char) : Bool :=
  isAlphaC c || isDigitC c

/-- Numeric value of a digit character. -/
def digitVal (c : Char) : Nat := c.toNat - 48

/-- Digit character of a value below 10. -/
def digitChar (n : Nat) : Char := Char.ofNat (48 + n)

/-- Python `str.strip()` (ASCII whitespace). -/
def stripL (cs : List Char) : List Char :=
  ((cs.dropWhile isWsC).reverse.dropWhile isWsC).reverse

/-- `re.sub(r'\s+', ' ', s)`: every maximal whitespace run becomes one space. -/
def collapseWs : List Char → List Char
  | [] => []
  | [c] => if isWsC c then [' '] else [c]
  | c :: d :: rest =>
    if isWsC c then
      if isWsC d then collapseWs (d :: rest) else ' ' :: collapseWs (d :: rest)
    else c :: collapseWs (d :: rest)

/-- Python substring membership `sub in hay`. -/
def containsSub (sub : List Char) : List Char → Bool
  | [] => sub.isEmpty
  | c :: rest => sub.isPrefixOf (c :: rest) || containsSub sub rest

/-- Python `s.replace(pat, '')` for a non-empty `pat`: delete each
non-overlapping occurrence, scanning left to right.  Fueled to stay
structural; fuel `length + 1` always suffices since each step consumes at
least one character. -/
def removeAllAux (pat : List Char) : Nat → List Char → List Char
  | 0, cs => cs
  | _ + 1, [] => []
  | fuel + 1, c :: rest =>
    if pat.isPrefixOf (c :: rest) then removeAllAux pat fuel ((c :: rest).drop pat.length)
    else c :: removeAllAux pat fuel rest

def removeAll (pat cs : List Char) : List Char :=
  removeAllAux pat (cs.length + 1) cs

/-- Python `s.split(sep)` for a single-character separator. -/
def splitOnChar (sep : Char) : List Char → List (List Char)
  | [] => [[]]
  | c :: rest =>
    match splitOnChar sep rest with
    | [] => [[c]]
    | g :: gs => if c = sep then [] :: g :: gs else (c :: g) :: gs

/-- Python `s.replace(',', '')`. -/
def removeCommas (cs : List Char) : List Char := cs.filter (· ≠ ',')

/-- Decimal value of a digit list (most significant first). -/
def digitsVal (cs : List Char) : Nat := cs.foldl (fun a c => 10 * a + digitVal c) 0

/-- Two-digit zero-padded print, as glibc `strftime` `%m` / `%d` produce for
the month/day values (always below 100) that `datetime` can hold. -/
def pad2 (n : Nat) : List Char := [digitChar (n / 10), digitChar (n % 10)]

/-- Four-digit zero-padded print (used by `date.isoformat()`, which always
pads the year to four digits). -/
def pad4 (n : Nat) : List Char :=
  [digitChar (n / 1000), digitChar (n / 100 % 10), digitChar (n / 10 % 10), digitChar (n % 10)]

/-- Unpadded decimal print of a year, as glibc `strftime` `%Y` produces;
`strptime('%m/%d/%Y')` only yields years of at most four digits, so the
four explicit cases cover every reachable input. -/
def yearStr (y : Nat) : List Char :=
  if y < 10 then [digitChar y]
  else if y < 100 then [digitChar (y / 10), digitChar (y % 10)]
  else if y < 1000 then [digitChar (y / 100), digitChar (y / 10 % 10), digitChar (y % 10)]
  else pad4 y

/-! ## Python `float()` on cleaned cell strings

Both parsers call `float(s)` on strings already stripped of commas.  The
model covers the decimal literals `float` accepts — optional surrounding
whitespace, sign, digit groups with single underscores between digits, an
optional fraction and exponent — plus the special spellings `inf`,
`infinity` and `nan`.  Finite values are carried exactly as rationals; the
binary rounding of the IEEE double (and its overflow/underflow at extreme
exponents) is not modelled, and no claim depends on it. -/

/-- A parsed `float` value.  A finite value is carried exactly as the
unreduced fraction `num / den` read off the literal (`den` is always a
power of ten); the claims only ever compare amounts produced by the same
literal, so no normalization is needed. -/
inductive PyFloat where
  | fin (num : ℤ) (den : ℕ)
  | infty (neg : Bool)
  | nan
  deriving DecidableEq, Repr

/-- Digit group with CPython underscore rules: an underscore must sit
between two digits.  Returns accumulated value, number of digits consumed
and the remaining characters; `none` on a misplaced underscore. -/
def uDigits (acc : Nat) (cnt : Nat) : List Char → Option (Nat × Nat × List Char)
  | [] => some (acc, cnt, [])
  | '_' :: rest =>
    match rest with
    | d :: _ => if cnt > 0 && isDigitC d then uDigits acc cnt rest else none
    | [] => none
  | c :: rest =>
    if isDigitC c then uDigits (10 * acc + digitVal c) (cnt + 1) rest
    else some (acc, cnt, c :: rest)

/-- Case-insensitive comparison against a lowercase literal. -/
def eqCaseless (lower : List Char) (cs : List Char) : Bool :=
  cs.map Char.toLower == lower

/-- The digits/fraction/exponent part of a `float()` literal (sign already
consumed), as an unreduced fraction. -/
def pyFloatNum (cs : List Char) : Option (Nat × Nat) :=
  match uDigits 0 0 cs with
  | none => none
  | some (iv, icnt, r1) =>
    let fracRes : Option (Nat × Nat × List Char) :=
      match r1 with
      | '.' :: r2 => uDigits 0 0 r2
      | _ => some (0, 0, r1)
    match fracRes with
    | none => none
    | some (fv, fcnt, r3) =>
      if icnt + fcnt = 0 then none
      else
        let mnum : Nat := iv * 10 ^ fcnt + fv
        let mden : Nat := 10 ^ fcnt
        match r3 with
        | [] => some (mnum, mden)
        | e :: r4 =>
          if e = 'e' || e = 'E' then
            let (eneg, r5) : Bool × List Char :=
              match r4 with
              | '-' :: r5 => (true, r5)
              | '+' :: r5 => (false, r5)
              | _ => (false, r4)
            match uDigits 0 0 r5 with
            | some (ev, ecnt, []) =>
              if ecnt = 0 then none
              else if eneg then some (mnum, mden * 10 ^ ev)
              else some (mnum * 10 ^ ev, mden)
            | _ => none
          else none

/-- CPython `float(s)`. -/
def pyFloat (cs : List Char) : Option PyFloat :=
  let t := stripL cs
  let (neg, body) : Bool × List Char :=
    match t with
    | '-' :: r => (true, r)
    | '+' :: r => (false, r)
    | _ => (false, t)
  if eqCaseless "inf".data body || eqCaseless "infinity".data body then some (.infty neg)
  else if eqCaseless "nan".data body then some .nan
  else
    match pyFloatNum body with
    | some (n, d) => some (.fin (if neg then -(n : ℤ) else (n : ℤ)) d)
    | none => none

/-- Python truthiness of a float (`0.0` is falsy, `inf`/`nan` truthy). -/
def pyTruthy : PyFloat → Bool
  | .fin num _ => num ≠ 0
  | .infty _ => true
  | .nan => true

/-! ## `datetime.strptime(s, '%m/%d/%Y')` and date printing

`_strptime` compiles `%m` to `1[0-2]|0[1-9]|[1-9]`, `%d` to
`3[01]|[12]\d|0[1-9]|[1-9]` and `%Y` to exactly four digits, demands the
whole string be consumed, and `datetime` then validates the calendar date
(`MINYEAR = 1`).  Since the groups are digit-only and separated by literal
slashes, this is equivalent to splitting on `/` into exactly three digit
groups — one or two digits with value in range for month/day, exactly four
for the year. -/

def isLeapYear (y : Nat) : Bool :=
  y % 4 = 0 && (y % 100 ≠ 0 || y % 400 = 0)

def daysInMonth (y m : Nat) : Nat :=
  if m = 2 then (if isLeapYear y then 29 else 28)
  else if m = 4 || m = 6 || m = 9 || m = 11 then 30
  else 31

def allDigits (cs : List Char) : Bool := cs.all isDigitC

/-- `datetime.strptime(s, '%m/%d/%Y')`, as `(month, day, year)`. -/
def parseMDY (cs : List Char) : Option (Nat × Nat × Nat) :=
  match splitOnChar '/' cs with
  | [a, b, c] =>
    if allDigits a && allDigits b && allDigits c &&
        1 ≤ a.length && a.length ≤ 2 && 1 ≤ b.length && b.length ≤ 2 && c.length = 4 &&
        1 ≤ digitsVal a && digitsVal a ≤ 12 && 1 ≤ digitsVal c &&
        1 ≤ digitsVal b && digitsVal b ≤ daysInMonth (digitsVal c) (digitsVal a) then
      some (digitsVal a, digitsVal b, digitsVal c)
    else none
  | _ => none

/-- `strftime('%Y-%m-%d')` on a parsed date. -/
def strftimeYMD (m d y : Nat) : List Char :=
  yearStr y ++ '-' :: pad2 m ++ '-' :: pad2 d

/-- `date.isoformat()` on a parsed date (year always padded to 4 digits). -/
def isoformatYMD (m d y : Nat) : List Char :=
  pad4 y ++ '-' :: pad2 m ++ '-' :: pad2 d

/-! ## `src/backend/edi_preprocessor.py`

The extractor's regex table is embedded pattern by pattern.  Each pattern
is a literal label followed by `\s*` and a capture; the scanners implement
the exact `re` semantics of those concrete patterns (leftmost match,
greediness / non-greediness, and the backtracking that the patterns can
actually exercise — `\s*` backtracks only before the character classes
that overlap `\s`). -/

namespace EdiPre

open Charlotte

/-- Capture of `\s*(\d+)` (group, rest after match); fails if no digit
follows the maximal whitespace run, which is exact because `\s` and `\d`
are disjoint, so shortening the `\s*` run can never recover a match. -/
def numTailSpan (cs : List Char) : Option (List Char × List Char) :=
  let r := cs.dropWhile isWsC
  let g := r.takeWhile isDigitC
  if g.isEmpty then none else some (g, r.dropWhile isDigitC)

def numTail (cs : List Char) : Option (List Char) := (numTailSpan cs).map (·.1)

/-- Capture of `\s*([A-Za-z0-9]+)` (group, rest after match). -/
def alnumTailSpan (cs : List Char) : Option (List Char × List Char) :=
  let r := cs.dropWhile isWsC
  let g := r.takeWhile isAlnumC
  if g.isEmpty then none else some (g, r.dropWhile isAlnumC)

/-- Group `([\d,]+\.?\d*)` at the current position. -/
def creditGroup (cs : List Char) : Option (List Char) :=
  let isDC : Char → Bool := fun c => isDigitC c || c = ','
  let g1 := cs.takeWhile isDC
  if g1.isEmpty then none
  else
    match cs.dropWhile isDC with
    | '.' :: r2 => some (g1 ++ '.' :: r2.takeWhile isDigitC)
    | _ => some g1

/-- Capture of `\s*\$?([\d,]+\.?\d*)`.  If a `$` is present it is consumed
greedily; declining it cannot help, since `$` is not in `[\d,]`. -/
def creditTail (cs : List Char) : Option (List Char) :=
  match cs.dropWhile isWsC with
  | '$' :: r2 => creditGroup r2
  | r1 => creditGroup r1

/-- Capture of `\s*(\d{2}/\d{2}/\d{4})`. -/
def dateTail (cs : List Char) : Option (List Char) :=
  match cs.dropWhile isWsC with
  | a :: b :: '/' :: c :: d :: '/' :: e :: f :: g :: h :: _ =>
    if [a, b, c, d, e, f, g, h].all isDigitC then
      some [a, b, '/', c, d, '/', e, f, g, h]
    else none
  | _ => none

/-- Shortest non-empty class run after which `term` holds — the semantics
of a non-greedy `([...]+?)` followed by a terminator. -/
def nonGreedyGroup (inClass : Char → Bool) (term : List Char → Bool) : List Char → Option (List Char)
  | [] => none
  | c :: rest =>
    if inClass c then
      if term rest then some [c]
      else (nonGreedyGroup inClass term rest).map (c :: ·)
    else none

/-- Backtracking of a leading `\s*` before a class that overlaps `\s`:
the greedy run is given back one character at a time. -/
def backtrackWs (inClass : Char → Bool) (term : List Char → Bool) :
    List Char → List Char → Option (List Char)
  | wsRev, cs =>
    match nonGreedyGroup inClass term cs with
    | some g => some g
    | none =>
      match wsRev with
      | [] => none
      | c :: ws => backtrackWs inClass term ws (c :: cs)

/-- Capture of `\s*([...]+?)(?:terminator)` for a class containing `\s`. -/
def wsGroupTail (inClass : Char → Bool) (term : List Char → Bool) (cs : List Char) :
    Option (List Char) :=
  backtrackWs inClass term (cs.takeWhile isWsC).reverse (cs.dropWhile isWsC)

/-- Terminator `(?:\n|MUTUALLY)` of the receiver pattern. -/
def recvTerm (cs : List Char) : Bool :=
  match cs with
  | '\n' :: _ => true
  | _ => "MUTUALLY".data.isPrefixOf cs

/-- Terminator `(?:\n|$)` of the originator pattern; with `re.MULTILINE`,
`$` matches before any newline and at the end of the text. -/
def origTerm (cs : List Char) : Bool :=
  match cs with
  | [] => true
  | '\n' :: _ => true
  | _ => false

def recvClass (c : Char) : Bool := isAlnumC c || isWsC c || c = '/'

def origClass (c : Char) : Bool := isAlnumC c || isWsC c || c = '-' || c = '/'

/-- `re.search` for a pattern `label<tail>`: try the full pattern at each
position left to right (every match starts at an occurrence of the literal
label). -/
def searchField (label : List Char) (tl : List Char → Option (List Char)) :
    List Char → Option (List Char)
  | [] => none
  | c :: rest =>
    match (if label.isPrefixOf (c :: rest) then tl ((c :: rest).drop label.length) else none) with
    | some g => some g
    | none => searchField label tl rest

/-- `re.findall` for `label<tail>` patterns: non-overlapping matches,
scanning resumes after each full match.  Fueled to stay structural; fuel
`length + 1` always suffices since each step consumes at least one
character. -/
def findallAux (label : List Char) (tl : List Char → Option (List Char × List Char)) :
    Nat → List Char → List (List Char)
  | 0, _ => []
  | _ + 1, [] => []
  | fuel + 1, c :: rest =>
    match (if label.isPrefixOf (c :: rest) then tl ((c :: rest).drop label.length) else none) with
    | some (g, after) => g :: findallAux label tl fuel after
    | none => findallAux label tl fuel rest

def findallField (label : List Char) (tl : List Char → Option (List Char × List Char))
    (cs : List Char) : List (List Char) :=
  findallAux label tl (cs.length + 1) cs

/-- `_extract_field` without a cleaning flag: first capture group,
stripped, or the empty string. -/
def extractField (label : List Char) (tl : List Char → Option (List Char))
    (cs : List Char) : List Char :=
  match searchField label tl cs with
  | some g => stripL g
  | none => []

def searchCreditAmount (cs : List Char) : Option (List Char) :=
  searchField "CREDIT:".data creditTail cs

def effectiveDateField (cs : List Char) : List Char :=
  extractField "EFFECTIVE DATE:".data dateTail cs

def pageNumberField (cs : List Char) : List Char :=
  extractField "PAGE:".data numTail cs

def findallRoutingId (cs : List Char) : List (List Char) :=
  findallField "ROUTING ID:".data numTailSpan cs

def demandAcctField (cs : List Char) : List Char :=
  extractField "DEMAND ACCT:".data numTail cs

def findallCompanyId (cs : List Char) : List (List Char) :=
  findallField "COMPANY ID:".data numTailSpan cs

def findallTraceNumber (cs : List Char) : List (List Char) :=
  findallField "TRACE NUMBER:".data alnumTailSpan cs

/-- `_extract_field(..., 'receiver', clean_receiver=True)`. -/
def receiverField (cs : List Char) : List Char :=
  match searchField "RECEIVER:".data (wsGroupTail recvClass recvTerm) cs with
  | some g =>
    let v := stripL (collapseWs (stripL g))
    stripL (removeAll "MUTUALLY DEFINED:".data v)
  | none => []

def mutuallyDefinedField (cs : List Char) : List Char :=
  extractField "MUTUALLY DEFINED:".data numTail cs

/-- `_extract_field(..., 'originator', clean_originator=True)`. -/
def originatorField (cs : List Char) : List Char :=
  match searchField "ORIGINATOR:".data (wsGroupTail origClass origTerm) cs with
  | some g => stripL (collapseWs (stripL g))
  | none => []

/-- `EDITransactionExtractor._format_date`: `MM/DD/YYYY` to `YYYY-MM-DD`,
anything unparseable passes through unchanged. -/
def format_date (cs : List Char) : List Char :=
  if !cs.isEmpty && containsSub ['/'] cs then
    match parseMDY cs with
    | some (m, d, y) => strftimeYMD m d y
    | none => cs
  else cs

/-- The `Transaction` dataclass. -/
structure Transaction where
  trace_number : List Char
  amount : PyFloat
  effective_date : List Char
  receiver : List Char
  originator : List Char
  page_number : List Char
  routing_id_credit : List Char
  routing_id_debit : List Char
  company_id_debit : List Char
  mutually_defined : List Char
  input_format : List Char
  demand_account : List Char
  file_name : List Char
  deriving DecidableEq, Repr

/-- JSON-serializable values appearing in `Transaction.to_dict`. -/
inductive JVal where
  | s (v : List Char)
  | n (v : PyFloat)
  deriving DecidableEq, Repr

/-- `Transaction.to_dict`. -/
def to_dict (t : Transaction) : List (List Char × JVal) :=
  [("trace_number".data, .s t.trace_number),
   ("amount".data, .n t.amount),
   ("effective_date".data, .s t.effective_date),
   ("receiver".data, .s t.receiver),
   ("originator".data, .s t.originator),
   ("page_number".data, .s t.page_number),
   ("routing_id_credit".data, .s t.routing_id_credit),
   ("routing_id_debit".data, .s t.routing_id_debit),
   ("company_id_debit".data, .s t.company_id_debit),
   ("mutually_defined".data, .s t.mutually_defined),
   ("input_format".data, .s t.input_format),
   ("demand_account".data, .s t.demand_account),
   ("file_name".data, .s t.file_name)]

/-- `EDITransactionExtractor.parse_page_content`.  The Python version
wraps the body in `try/except` returning `None`; the only fallible step is
`float(...)`, so the embedding returns `none` exactly when the credit
regex fails or the amount string does not parse. -/
def parse_page_content (page_text file_name : List Char) : Option Transaction :=
  match searchCreditAmount page_text with
  | none => none
  | some grp =>
    match pyFloat (removeCommas grp) with
    | none => none
    | some amount =>
      let effective_date := effectiveDateField page_text
      let page_number := pageNumberField page_text
      let routing_ids := findallRoutingId page_text
      let routing_id_credit := routing_ids.headD []
      let routing_id_debit := (routing_ids.drop 1).headD []
      let demand_acct := demandAcctField page_text
      let company_ids := findallCompanyId page_text
      let company_id_debit :=
        match company_ids with
        | _ :: second :: _ => second
        | [first] => first
        | [] => []
      let trace_numbers := findallTraceNumber page_text
      let trace_number := trace_numbers.headD []
      let receiver := receiverField page_text
      let mutually_defined := mutuallyDefinedField page_text
      let originator := originatorField page_text
      let formatted_date := format_date effective_date
      some
        { trace_number := trace_number
          amount := amount
          effective_date := formatted_date
          receiver := receiver
          originator := originator
          page_number := page_number
          routing_id_credit := routing_id_credit
          routing_id_debit := routing_id_debit
          company_id_debit := company_id_debit
          mutually_defined := mutually_defined
          input_format := "ACHCCD+".data
          demand_account := demand_acct
          file_name := file_name }

def ncstLit : List Char := "NORTH CAROLINA STATE TREASURER".data

def pageLit : List Char := "PAGE:".data

/-- `PAGE:` tail `\s*\d+` of the page-header pattern: consumed length. -/
def pageTailLen (cs : List Char) : Option Nat :=
  let w := cs.takeWhile isWsC
  let d := (cs.dropWhile isWsC).takeWhile isDigitC
  if d.isEmpty then none else some (w.length + d.length)

/-- `.*?PAGE:\s*\d+`: non-greedy scan on the current line for the first
`PAGE:` occurrence whose tail completes; consumed length. -/
def scanPage : List Char → Option Nat
  | [] => none
  | c :: rest =>
    match (if pageLit.isPrefixOf (c :: rest) then pageTailLen ((c :: rest).drop pageLit.length)
           else none) with
    | some k => some (pageLit.length + k)
    | none => if c = '\n' then none else (scanPage rest).map (· + 1)

/-- Length of a match of `NORTH CAROLINA STATE TREASURER.*?PAGE:\s*\d+`
starting at the current position, if any. -/
def matchHeaderAt (cs : List Char) : Option Nat :=
  if ncstLit.isPrefixOf cs then (scanPage (cs.drop ncstLit.length)).map (ncstLit.length + ·)
  else none

/-- One pass implementing both `re.split` and `re.findall` on the header
pattern: the segment before the first match, then (match, following
segment) pairs.  Fueled to stay structural; a match consumes at least the
30-character literal, so fuel `length + 1` is always enough. -/
def reScanAux : Nat → List Char → List Char × List (List Char × List Char)
  | 0, cs => (cs, [])
  | _ + 1, [] => ([], [])
  | fuel + 1, c :: rest =>
    match matchHeaderAt (c :: rest) with
    | some n =>
      let (seg, pairs) := reScanAux fuel ((c :: rest).drop n)
      ([], ((c :: rest).take n, seg) :: pairs)
    | none =>
      let (seg, pairs) := reScanAux fuel rest
      (c :: seg, pairs)

def reScanHeaders (cs : List Char) : List Char × List (List Char × List Char) :=
  reScanAux (cs.length + 1) cs

/-- `EDITransactionExtractor.split_pages`: split on the page-header
pattern, discard the text before the first header, and re-attach each
header to its page body. -/
def split_pages (text : List Char) : List (List Char) :=
  (reScanHeaders text).2.map (fun p => p.1 ++ p.2)

def hasPaymentMarkers (p : List Char) : Bool :=
  containsSub "PAYMENT INFORMATION:".data p && containsSub "CREDIT:".data p

/-- `EDITransactionExtractor.process_file` from the extracted text
onwards (PDF byte decoding is I/O outside the embedding): keep the page
segments containing both section markers and parse each one. -/
def process_file (text file_name : List Char) : List Transaction :=
  (split_pages text).filterMap
    (fun p => if hasPaymentMarkers p then parse_page_content p file_name else none)

end EdiPre

/-! ## `src/backend/alignRx_parser.py`

The spreadsheet is modelled as a list of rows of already-stringified cells
(the `str(cell)` / NaN-dropping cleanup is applied by the first step, as
in the source).  The outcome of the `check_if_report_exists` call is an
oracle parameter: the service either reports a duplicate, reports none, or
the call raises. -/

namespace AlignRx

open Charlotte

inductive PState where
  | SCANNING
  | FIND_CENTRAL_PAY
  | PARSE_CENTRAL_PAY
  | FIND_TOTAL
  | DONE
  deriving DecidableEq, Repr

/-- The literal state names printed in diagnostics. -/
def stateName : PState → List Char
  | .SCANNING => "SCANNING".data
  | .FIND_CENTRAL_PAY => "FIND_CENTRAL_PAY".data
  | .PARSE_CENTRAL_PAY => "PARSE_CENTRAL_PAY".data
  | .FIND_TOTAL => "FIND_TOTAL".data
  | .DONE => "DONE".data

structure CentralPayment where
  sender : List Char
  check_num : List Char
  amount : PyFloat
  deriving DecidableEq, Repr

/-- The `report_data` dictionary being filled in. -/
structure ReportData where
  source_file : List Char
  id : List Char
  date : Option (List Char)
  destination : Option (List Char)
  central_payments : List CentralPayment
  processing_fee : Option PyFloat
  payment_amount : Option PyFloat
  deriving DecidableEq, Repr

def initReport (sourceFile reportId : List Char) : ReportData :=
  { source_file := sourceFile
    id := reportId
    date := none
    destination := none
    central_payments := []
    processing_fee := none
    payment_amount := none }

/-- Row cleanup: stringified cells stripped, empty cells dropped. -/
def cleanRow (row : List (List Char)) : List (List Char) :=
  (row.map stripL).filter (fun c => !c.isEmpty)

/-- `" | ".join(row_cells)`. -/
def joinBar : List (List Char) → List Char
  | [] => []
  | [c] => c
  | c :: d :: rest => c ++ ' ' :: '|' :: ' ' :: joinBar (d :: rest)

/-- Group 2 of the payment-line regex: non-greedy `(.*?)\)` — the
characters before the first `)` on the line. -/
def checkNumScan : List Char → Option (List Char)
  | [] => none
  | c :: rest =>
    if c = ')' then some []
    else if c = '\n' then none
    else (checkNumScan rest).map (c :: ·)

def checkLit : List Char := " (Check # - ".data

/-- `re.search(r'^(.*?) \(Check # - (.*?)\)', s)`: with the `^` anchor the
match starts at the beginning; group 1 non-greedily extends to the first
` (Check # - ` whose group 2 finds a closing `)`. -/
def payScan : List Char → Option (List Char × List Char)
  | [] => none
  | c :: rest =>
    match (if checkLit.isPrefixOf (c :: rest) then
             checkNumScan ((c :: rest).drop checkLit.length)
           else none) with
    | some g2 => some ([], g2)
    | none =>
      if c = '\n' then none
      else (payScan rest).map (fun p => (c :: p.1, p.2))

/-- Matched payment line as `(sender, check_num)`, both stripped as in the
source. -/
def matchPaymentLine (cell : List Char) : Option (List Char × List Char) :=
  (payScan cell).map (fun p => (stripL p.1, stripL p.2))

/-- The per-cell body of the `SCANNING` header loop: a `Pay Date:` cell
sets (or on a parse failure resets) the date; a recognized pharmacy name
sets the destination. -/
def scanCell (r : ReportData) (cell : List Char) : ReportData :=
  let r1 :=
    if "Pay Date:".data.isPrefixOf cell then
      let raw := stripL (removeAll "Pay Date:".data cell)
      match parseMDY raw with
      | some (m, d, y) => { r with date := some (isoformatYMD m d y) }
      | none => { r with date := none }
    else r
  if containsSub "CAMPUS HEALTH PHARMACY".data cell then
    { r1 with destination := some "CAMPUS HEALTH PHARMACY".data }
  else if containsSub "STUDENT STORES PHARMACY".data cell then
    { r1 with destination := some "STUDENT STORES PHARMACY".data }
  else r1

def truthyOptStr : Option (List Char) → Bool
  | some s => !s.isEmpty
  | none => false

def truthyOptAmt : Option PyFloat → Bool
  | some v => pyTruthy v
  | none => false

/-- One iteration of the row loop of `parse_excel_report`.  `DONE` is
absorbing, which models the `break` that stops reading rows. -/
def stepRow (st : PState) (r : ReportData) (row : List (List Char)) : PState × ReportData :=
  let cells := cleanRow row
  if cells.isEmpty then (st, r)
  else
    let rowStr := joinBar cells
    match st with
    | .SCANNING =>
      if containsSub "Pay Date:".data rowStr &&
          (containsSub "CAMPUS HEALTH PHARMACY".data rowStr ||
           containsSub "STUDENT STORES PHARMACY".data rowStr) then
        let r1 := cells.foldl scanCell r
        if truthyOptStr r1.date && truthyOptStr r1.destination then (.FIND_CENTRAL_PAY, r1)
        else (.SCANNING, r1)
      else (.SCANNING, r)
    | .FIND_CENTRAL_PAY =>
      if containsSub "Central Pay".data rowStr then (.PARSE_CENTRAL_PAY, r)
      else (.FIND_CENTRAL_PAY, r)
    | .PARSE_CENTRAL_PAY =>
      let firstCell := cells.headD []
      let lastCell := cells.getLastD []
      match matchPaymentLine firstCell with
      | some (sender, checkNum) =>
        match pyFloat (removeCommas lastCell) with
        | some amt =>
          (.PARSE_CENTRAL_PAY,
           { r with central_payments :=
               r.central_payments ++ [⟨sender, checkNum, amt⟩] })
        | none => (.PARSE_CENTRAL_PAY, r)
      | none =>
        if containsSub "Processing Fee".data firstCell then
          match pyFloat (removeCommas lastCell) with
          | some amt => (.FIND_TOTAL, { r with processing_fee := some amt })
          | none => (.FIND_TOTAL, r)
        else (.PARSE_CENTRAL_PAY, r)
    | .FIND_TOTAL =>
      let firstCell := cells.headD []
      let lastCell := cells.getLastD []
      if containsSub "Payment Amount".data firstCell then
        match pyFloat (removeCommas lastCell) with
        | some amt => (.DONE, { r with payment_amount := some amt })
        | none => (.DONE, r)
      else (.FIND_TOTAL, r)
    | .DONE => (.DONE, r)

/-- The whole row loop. -/
def runRows (sourceFile reportId : List Char) (rows : List (List (List Char))) :
    PState × ReportData :=
  rows.foldl (fun p row => stepRow p.1 p.2 row) (.SCANNING, initReport sourceFile reportId)

/-- `[field for field in ['date', 'destination', 'payment_amount'] if not
report_data.get(field)]` — the required-field filter, unrolled over the
fixed three-element field list in source order. -/
def missingFields (r : ReportData) : List (List Char) :=
  (if !truthyOptStr r.date then ["date".data] else []) ++
    (if !truthyOptStr r.destination then ["destination".data] else []) ++
      (if !truthyOptAmt r.payment_amount then ["payment_amount".data] else [])

/-- The `ValueError` message of the terminal validation. -/
def joinCommaSpace : List (List Char) → List Char
  | [] => []
  | [c] => c
  | c :: d :: rest => c ++ ',' :: ' ' :: joinCommaSpace (d :: rest)

def validationMessage (missing : List (List Char)) (st : PState) : List Char :=
  "Parsing incomplete: missing required fields: ".data ++ joinCommaSpace missing ++
    ". Report may not match expected schema. Final state: ".data ++ stateName st

/-- Outcome of the `check_if_report_exists` call as observed by
`parse_excel_report`: a boolean answer, or the call raised. -/
inductive DupCheck where
  | found
  | notFound
  | errored
  deriving DecidableEq, Repr

inductive ParseResult where
  | ok (r : ReportData)
  | validationError (missing : List (List Char)) (finalState : PState)
  | duplicateReportError
  deriving DecidableEq, Repr

/-- `AlignRxParser.parse_excel_report` from the row iteration onwards
(`pd.read_excel` is I/O outside the embedding; a read failure returns
`None` before any of this runs).  A detected duplicate raises the distinct
`DuplicateReportError`; an error in the duplicate check itself is caught
and the report is returned (fail open). -/
def parse_excel_report (rows : List (List (List Char))) (sourceFile reportId : List Char)
    (dup : DupCheck) : ParseResult :=
  let (st, r) := runRows sourceFile reportId rows
  let missing := missingFields r
  if !missing.isEmpty then .validationError missing st
  else
    match dup with
    | .found => .duplicateReportError
    | .notFound => .ok r
    | .errored => .ok r

end AlignRx

/-! ## `src/backend/edi_parser.py`

`EDIParser.parse_edi_file`.  The extraction callee
(`EDITransactionExtractor.parse_edi_file`) and the search-service lookups
(`check_if_file_exists`, `check_if_trace_numbers_exist`) are called here
but are not defined in the sources, so they enter the model as data: the
extraction result is a parameter (`none` modelling a raised exception),
transactions are an arbitrary type `α` (the model does not depend on
their shape), and each lookup is an oracle (`Bool` for the file-level
checks, `Except Unit Bool` for the trace-number check, `error` modelling
a raised exception). -/

namespace EdiParser

structure EdiParseRes (α : Type) where
  all_transactions : List α
  chs_transactions : List α
  file_name : List Char
  all_transaction_count : Nat
  chs_transaction_count : Nat
  chs_duplicate : Bool
  deriving DecidableEq, Repr

inductive EdiOutcome (α : Type) where
  | duplicateReportError
  | valueError
  | ok (res : EdiParseRes α)
  deriving DecidableEq, Repr

/-- `EDIParser.parse_edi_file`.  File-level duplicates raise
`DuplicateReportError`; an extraction failure or an empty transaction list
becomes `ValueError`; a positive trace-number check only sets
`chs_duplicate`, and an error in that check is caught and processing
continues with `chs_duplicate = False`. -/
def parse_edi_file {α : Type} (chsFileExists masterFileExists : Bool)
    (extraction : Option (List α × List α × List (List Char)))
    (traceCheck : Except Unit Bool) (filename : List Char) : EdiOutcome α :=
  if chsFileExists then .duplicateReportError
  else if masterFileExists then .duplicateReportError
  else
    match extraction with
    | none => .valueError
    | some (allTx, chsTx, traceNums) =>
      if allTx.isEmpty then .valueError
      else
        let chsDuplicate :=
          if !traceNums.isEmpty then
            match traceCheck with
            | .ok b => b
            | .error _ => false
          else false
        .ok
          { all_transactions := allTx
            chs_transactions := chsTx
            file_name := filename
            all_transaction_count := allTx.length
            chs_transaction_count := chsTx.length
            chs_duplicate := chsDuplicate }

end EdiParser

end Charlotte

/-! # Claims -/

open Charlotte Charlotte.EdiPre Charlotte.AlignRx Charlotte.EdiParser

set_option maxRecDepth 100000

/-- A document whose single `PAYMENT INFORMATION:` chunk is interrupted by
the page-2 header (the page-break sentinel of the extracted text). -/
def docC1 : List Char :=
  ("NORTH CAROLINA STATE TREASURER   PAGE: 1\nPAYMENT INFORMATION:\nTRACE NUMBER: ABC123\nORIGINATOR: BCBS of NC\nNORTH CAROLINA STATE TREASURER   PAGE: 2\nCREDIT: $1,234.56\nEFFECTIVE DATE: 03/15/2025\n").data

/-- A chunk declaring `INPUT FORMAT: ACHCTX`. -/
def chunkC2 : List Char :=
  "PAYMENT INFORMATION:\nINPUT FORMAT: ACHCTX\nCREDIT: $75.25\nTRACE NUMBER: Z9\n".data

/-- A chunk declaring an unknown input format. -/
def chunkC2unknown : List Char :=
  "PAYMENT INFORMATION:\nINPUT FORMAT: BOGUS\nCREDIT: $10.00\n".data

/-- A chunk with exactly one `COMPANY ID:` occurrence. -/
def chunkC6 : List Char :=
  "PAYMENT INFORMATION:\nCREDIT: $50.00\nCOMPANY ID: 123\n".data

/-- The chunk of the C6 witness: two routing ids, one company id. -/
def chunkC6w : List Char :=
  "PAYMENT INFORMATION:\nCREDIT: 1\nROUTING ID: 11\nROUTING ID: 22\nCOMPANY ID: 33\n".data

/-- The transaction `parse_page_content` extracts from `chunkC6w`. -/
def txC6w : Transaction :=
  { trace_number := []
    amount := .fin 1 1
    effective_date := []
    receiver := []
    originator := []
    page_number := []
    routing_id_credit := "11".data
    routing_id_debit := "22".data
    company_id_debit := "33".data
    mutually_defined := []
    input_format := "ACHCCD+".data
    demand_account := []
    file_name := "f".data }

/-- A second C6 witness chunk: two `COMPANY ID:` occurrences. -/
def chunkC6w2 : List Char :=
  "PAYMENT INFORMATION:\nCREDIT: 1\nCOMPANY ID: 55\nCOMPANY ID: 66\n".data

/-- The transaction `parse_page_content` extracts from `chunkC6w2`. -/
def txC6w2 : Transaction :=
  { trace_number := []
    amount := .fin 1 1
    effective_date := []
    receiver := []
    originator := []
    page_number := []
    routing_id_credit := []
    routing_id_debit := []
    company_id_debit := "66".data
    mutually_defined := []
    input_format := "ACHCCD+".data
    demand_account := []
    file_name := "f".data }

/-- A chunk has a parseable credit amount: the `CREDIT:` pattern matches
and the cleaned capture parses as a float — the existence test of a
transaction. -/
def chunkHasParseableCredit (p : List Char) : Bool :=
  match searchCreditAmount p with
  | some g => (pyFloat (removeCommas g)).isSome
  | none => false

/-- Re-normalizing the serialized value of a string field. -/
def renormalizeJVal : JVal → JVal
  | .s v => .s (format_date v)
  | v => v

/-- The worked-example AlignRx rows (spec section 8). -/
def rowsC3 : List (List (List Char)) :=
  [[ "Pay Date: 06/02/2025".data, "CAMPUS HEALTH PHARMACY".data],
   [],
   ["Central Pay Detail".data],
   ["Acme Corp (Check # - 9911)".data, "x".data, "250.00".data],
   ["Processing Fee".data, "".data, "5.00".data],
   ["Payment Amount".data, "".data, "245.00".data]]

/-- C1: the pipeline `split_pages` / `parse_page_content` / `process_file`
does NOT parse a transaction that spans a page boundary as one chunk: on
`docC1` it splits at the physical page header and returns no Transaction
at all, although the whole document text is a single well-formed payment
chunk (parsing it unsplit yields a transaction with trace number, date,
originator and amount all populated).  Transaction boundaries in this code
are governed by the page-header pattern, not the `PAYMENT INFORMATION:`
marker. -/
theorem c1_page_break_loses_transaction :
    process_file docC1 "f.pdf".data = [] ∧
    (split_pages docC1).length = 2 ∧
    (parse_page_content docC1 "f.pdf".data).map
        (fun t => (t.trace_number, t.effective_date, t.originator, t.amount)) =
      some ("ABC123".data, "2025-03-15".data, "BCBS of NC".data, .fin 123456 100) := by
  decide

/-- C2: `parse_page_content` never reads the `INPUT FORMAT:` field — a
chunk declaring `ACHCTX` still gets the hard-coded `input_format`
`"ACHCCD+"`, and a chunk declaring an unknown format is parsed rather than
skipped. -/
theorem c2_input_format_hardcoded :
    containsSub "INPUT FORMAT: ACHCTX".data chunkC2 = true ∧
    (parse_page_content chunkC2 "f.pdf".data).map Transaction.input_format =
      some "ACHCCD+".data ∧
    containsSub "INPUT FORMAT: BOGUS".data chunkC2unknown = true ∧
    (parse_page_content chunkC2unknown "f.pdf".data).isSome = true := by
  decide

/-- C6 counterexample: with a single `COMPANY ID:` occurrence (fewer than
two), the debit field is NOT left empty — it receives the first
occurrence. -/
theorem c6_single_company_id_not_empty :
    (findallCompanyId chunkC6).length = 1 ∧
    (parse_page_content chunkC6 "f.pdf".data).map Transaction.company_id_debit =
      some "123".data ∧
    "123".data ≠ ([] : List Char) := by
  decide

/-! ## Helper lemmas on the text primitives -/

theorem containsSub_singleton_true {c : Char} {l : List Char} (h : c ∈ l) :
    containsSub [c] l = true := by
  induction l with
  | nil => cases h
  | cons a l ih =>
    rcases List.mem_cons.mp h with rfl | h
    · simp [containsSub, List.isPrefixOf]
    · simp [containsSub, ih h]

theorem containsSub_singleton_false {c : Char} {l : List Char} (h : c ∉ l) :
    containsSub [c] l = false := by
  induction l with
  | nil => rfl
  | cons a l ih =>
    have hne : c ≠ a := fun e => h (e ▸ List.mem_cons_self a l)
    have hnm : c ∉ l := fun e => h (List.mem_cons_of_mem a e)
    simp [containsSub, List.isPrefixOf, ih hnm, beq_eq_false_iff_ne, hne]

theorem splitOnChar_ne_nil (sep : Char) (l : List Char) : splitOnChar sep l ≠ [] := by
  cases l with
  | nil => simp [splitOnChar]
  | cons c rest =>
    simp only [splitOnChar]
    rcases h : splitOnChar sep rest with _ | ⟨g, gs⟩ <;> split_ifs <;> simp

theorem splitOnChar_length (sep : Char) (l : List Char) :
    (splitOnChar sep l).length = l.count sep + 1 := by
  induction l with
  | nil => simp [splitOnChar]
  | cons c rest ih =>
    simp only [splitOnChar]
    rcases h : splitOnChar sep rest with _ | ⟨g, gs⟩
    · exact absurd h (splitOnChar_ne_nil sep rest)
    · rw [h] at ih
      simp only [List.length_cons] at ih
      by_cases hc : c = sep
      · subst hc
        simp only [List.count_cons_self, if_true, List.length_cons, eq_self_iff_true, if_pos]
        omega
      · have hcs : sep ≠ c := fun e => hc e.symm
        simp only [List.count_cons_of_ne hcs, if_neg hc, List.length_cons]
        omega

theorem digitVal_le_nine {c : Char} (h : isDigitC c = true) : digitVal c ≤ 9 := by
  simp only [isDigitC, Bool.and_eq_true, decide_eq_true_eq] at h
  unfold digitVal
  omega

theorem digitsVal_foldl_bound (l : List Char) :
    ∀ acc : Nat, (∀ c ∈ l, digitVal c ≤ 9) →
      l.foldl (fun a c => 10 * a + digitVal c) acc < (acc + 1) * 10 ^ l.length := by
  induction l with
  | nil => intro acc _; simp
  | cons c l ih =>
    intro acc h
    have hc : digitVal c ≤ 9 := h c (List.mem_cons_self c l)
    have hrest : ∀ x ∈ l, digitVal x ≤ 9 := fun x hx => h x (List.mem_cons_of_mem c hx)
    have h1 := ih (10 * acc + digitVal c) hrest
    have h2 : (10 * acc + digitVal c + 1) * 10 ^ l.length ≤ (acc + 1) * 10 ^ (c :: l).length := by
      simp only [List.length_cons, pow_succ]
      calc (10 * acc + digitVal c + 1) * 10 ^ l.length
          ≤ ((acc + 1) * 10) * 10 ^ l.length := by
            have : 10 * acc + digitVal c + 1 ≤ (acc + 1) * 10 := by omega
            exact Nat.mul_le_mul_right _ this
        _ = (acc + 1) * (10 ^ l.length * 10) := by ring
    calc (c :: l).foldl (fun a c => 10 * a + digitVal c) acc
        = l.foldl (fun a c => 10 * a + digitVal c) (10 * acc + digitVal c) := rfl
      _ < (10 * acc + digitVal c + 1) * 10 ^ l.length := h1
      _ ≤ (acc + 1) * 10 ^ (c :: l).length := h2

theorem digitsVal_bound (l : List Char) (h : l.all isDigitC = true) :
    digitsVal l < 10 ^ l.length := by
  have : ∀ c ∈ l, digitVal c ≤ 9 := by
    intro c hc
    exact digitVal_le_nine (List.all_eq_true.mp h c hc)
  simpa [digitsVal] using digitsVal_foldl_bound l 0 this

/-! ## `format_date` lemmas (claims C8, C9) -/

/-- Numeric facts guaranteed by a successful `strptime('%m/%d/%Y')`. -/
theorem parseMDY_bounds {s : List Char} {m d y : Nat} (h : parseMDY s = some (m, d, y)) :
    1 ≤ m ∧ m ≤ 12 ∧ 1 ≤ d ∧ d ≤ 31 ∧ 1 ≤ y ∧ y ≤ 9999 := by
  unfold parseMDY at h
  rcases hs : splitOnChar '/' s with _ | ⟨a, rest⟩
  · rw [hs] at h; cases h
  · rw [hs] at h
    rcases rest with _ | ⟨b, rest2⟩
    · cases h
    · rcases rest2 with _ | ⟨c, rest3⟩
      · cases h
      · rcases rest3 with _ | ⟨e, rest4⟩
        · -- the three-part case
          dsimp only at h
          split_ifs at h with h1
          · simp only [Option.some.injEq, Prod.mk.injEq] at h
            obtain ⟨rfl, rfl, rfl⟩ := h
            simp only [Bool.and_eq_true, decide_eq_true_eq, and_assoc] at h1
            obtain ⟨hda, hdb, hdc, ha1, ha2, hb1, hb2, hc4, hm1, hm2, hy1, hd1, hd2⟩ := h1
            have hy2 : digitsVal c < 10 ^ c.length := digitsVal_bound c hdc
            rw [hc4] at hy2
            have hdm : daysInMonth (digitsVal c) (digitsVal a) ≤ 31 := by
              unfold daysInMonth
              split_ifs <;> omega
            exact ⟨hm1, hm2, hd1, le_trans hd2 hdm, hy1, by omega⟩
        · cases h

theorem slash_ne_digitChar {n : Nat} (h : n ≤ 9) : ('/' : Char) ≠ digitChar n := by
  interval_cases n <;> decide

theorem slash_not_mem_pad2 {n : Nat} (h : n ≤ 99) : ('/' : Char) ∉ pad2 n := by
  intro hm
  simp only [pad2, List.mem_cons, List.not_mem_nil, or_false] at hm
  rcases hm with hm | hm
  · exact slash_ne_digitChar (by omega) hm
  · exact slash_ne_digitChar (by omega) hm

theorem slash_not_mem_pad4 {n : Nat} (h : n ≤ 9999) : ('/' : Char) ∉ pad4 n := by
  intro hm
  simp only [pad4, List.mem_cons, List.not_mem_nil, or_false] at hm
  rcases hm with hm | hm | hm | hm <;>
    exact slash_ne_digitChar (by omega) hm

theorem slash_not_mem_yearStr {y : Nat} (h : y ≤ 9999) : ('/' : Char) ∉ yearStr y := by
  unfold yearStr
  split_ifs with h1 h2 h3 <;> intro hm
  · simp only [List.mem_cons, List.not_mem_nil, or_false] at hm
    exact slash_ne_digitChar (by omega) hm
  · simp only [List.mem_cons, List.not_mem_nil, or_false] at hm
    rcases hm with hm | hm <;> exact slash_ne_digitChar (by omega) hm
  · simp only [List.mem_cons, List.not_mem_nil, or_false] at hm
    rcases hm with hm | hm | hm <;> exact slash_ne_digitChar (by omega) hm
  · exact slash_not_mem_pad4 h hm

theorem slash_not_mem_strftimeYMD {m d y : Nat} (hm : m ≤ 99) (hd : d ≤ 99)
    (hy : y ≤ 9999) : ('/' : Char) ∉ strftimeYMD m d y := by
  intro hmem
  rcases List.mem_append.mp hmem with h1 | h2
  · rcases List.mem_append.mp h1 with h3 | h4
    · exact slash_not_mem_yearStr hy h3
    · rcases List.mem_cons.mp h4 with h5 | h6
      · exact absurd h5 (by decide)
      · exact slash_not_mem_pad2 hm h6
  · rcases List.mem_cons.mp h2 with h7 | h8
    · exact absurd h7 (by decide)
    · exact slash_not_mem_pad2 hd h8

theorem format_date_of_not_slash {cs : List Char} (h : containsSub ['/'] cs = false) :
    format_date cs = cs := by
  unfold format_date
  rw [h]
  simp

theorem format_date_parse_none {cs : List Char} (h : parseMDY cs = none) :
    format_date cs = cs := by
  unfold format_date
  split_ifs with hg
  · rw [h]
  · rfl

theorem parseMDY_some_shape {s : List Char} {m d y : Nat}
    (h : parseMDY s = some (m, d, y)) :
    containsSub ['/'] s = true ∧ s.isEmpty = false := by
  have h3 : (splitOnChar '/' s).length = 3 := by
    unfold parseMDY at h
    rcases hs : splitOnChar '/' s with _ | ⟨a, rest⟩ <;> rw [hs] at h
    · cases h
    · rcases rest with _ | ⟨b, rest2⟩
      · cases h
      · rcases rest2 with _ | ⟨c, rest3⟩
        · cases h
        · rcases rest3 with _ | ⟨e, rest4⟩
          · rfl
          · cases h
  have hcount : s.count '/' = 2 := by
    have := splitOnChar_length '/' s
    omega
  have hmem : '/' ∈ s := by
    by_contra hnm
    rw [List.count_eq_zero_of_not_mem hnm] at hcount
    cases hcount
  refine ⟨containsSub_singleton_true hmem, ?_⟩
  cases s with
  | nil => cases hmem
  | cons a l => rfl

theorem format_date_parse_some {s : List Char} {m d y : Nat}
    (h : parseMDY s = some (m, d, y)) :
    format_date s = strftimeYMD m d y := by
  obtain ⟨hc, he⟩ := parseMDY_some_shape h
  unfold format_date
  rw [hc, he, h]
  rfl

/-- C9 core: `_format_date` is idempotent — its output never contains a
slash, so a second pass takes the pass-through branch. -/
theorem format_date_idem (s : List Char) : format_date (format_date s) = format_date s := by
  rcases hp : parseMDY s with _ | ⟨m, d, y⟩
  · rw [format_date_parse_none hp, format_date_parse_none hp]
  · obtain ⟨_, hm2, _, hd2, _, hy2⟩ := parseMDY_bounds hp
    rw [format_date_parse_some hp]
    exact format_date_of_not_slash
      (containsSub_singleton_false
        (slash_not_mem_strftimeYMD (by omega) (by omega) hy2))

/-- Field equations of a successful `parse_page_content`. -/
theorem parse_page_content_some {pt fn : List Char} {t : Transaction}
    (h : parse_page_content pt fn = some t) :
    t.effective_date = format_date (effectiveDateField pt) ∧
    t.routing_id_credit = (findallRoutingId pt).headD [] ∧
    t.routing_id_debit = ((findallRoutingId pt).drop 1).headD [] ∧
    t.company_id_debit =
      (match findallCompanyId pt with
       | _ :: second :: _ => second
       | [first] => first
       | [] => []) ∧
    t.input_format = "ACHCCD+".data := by
  unfold parse_page_content at h
  rcases hc : searchCreditAmount pt with _ | g <;> rw [hc] at h <;> dsimp only at h
  · cases h
  · rcases hf : pyFloat (removeCommas g) with _ | a <;> rw [hf] at h <;> dsimp only at h
    · cases h
    · obtain rfl := (Option.some.inj h).symm
      exact ⟨rfl, rfl, rfl, rfl, rfl⟩

/-- C9: date normalization is idempotent — `_format_date` applied twice
equals one application for every string — and consequently re-normalizing
the `effective_date` literal that `to_dict` serializes for any parsed
Transaction reproduces the identical value. -/
theorem c9_date_normalization_idempotent (s pt fn : List Char) :
    format_date (format_date s) = format_date s ∧
    (parse_page_content pt fn).map
        (fun t => ((to_dict t).lookup "effective_date".data).map renormalizeJVal) =
      (parse_page_content pt fn).map
        (fun t => (to_dict t).lookup "effective_date".data) := by
  refine ⟨format_date_idem s, ?_⟩
  rcases hp : parse_page_content pt fn with _ | t
  · rfl
  · have hl : (to_dict t).lookup "effective_date".data = some (.s t.effective_date) := rfl
    have ht := (parse_page_content_some hp).1
    simp only [Option.map_some', hl, renormalizeJVal, ht, format_date_idem]

/-- C8: a string that `strptime('%m/%d/%Y')` accepts is rewritten to the
corresponding `YYYY-MM-DD` string (year printed in four digits), and a
string it rejects is returned unchanged — extraction is never blocked by
a malformed date. -/
theorem c8_format_date (s : List Char) (m d y : Nat) :
    (parseMDY s = some (m, d, y) → 1000 ≤ y →
       format_date s = pad4 y ++ '-' :: pad2 m ++ '-' :: pad2 d) ∧
    (parseMDY s = none → format_date s = s) := by
  constructor
  · intro h hy
    rw [format_date_parse_some h]
    unfold strftimeYMD yearStr
    rw [if_neg (by omega), if_neg (by omega), if_neg (by omega)]
  · exact format_date_parse_none

/-- Witness for C8 at concrete inputs. -/
theorem c8_format_date_witness :
    format_date "03/15/2025".data = "2025-03-15".data ∧
    format_date "not a date".data = "not a date".data := by
  constructor
  · have h := (c8_format_date "03/15/2025".data 3 15 2025).1 (by decide) (by decide)
    rw [h]
    decide
  · exact (c8_format_date "not a date".data 0 0 0).2 (by decide)

/-! ## C7: transaction count equals parseable-credit chunk count -/

theorem parse_page_content_isSome (p fn : List Char) :
    (parse_page_content p fn).isSome = chunkHasParseableCredit p := by
  unfold parse_page_content chunkHasParseableCredit
  rcases hc : searchCreditAmount p with _ | g <;> dsimp only
  · rfl
  · rcases hf : pyFloat (removeCommas g) with _ | a <;> rfl

theorem length_filterMap_eq_length_filter {α β : Type} (f : α → Option β) (l : List α) :
    (l.filterMap f).length = (l.filter (fun a => (f a).isSome)).length := by
  induction l with
  | nil => rfl
  | cons a l ih =>
    rcases hf : f a with _ | b
    · simp [List.filterMap_cons, List.filter_cons, hf, ih]
    · simp [List.filterMap_cons, List.filter_cons, hf, ih]

/-- C7: the pipeline never raises (it is a total function), and the number
of Transactions `process_file` returns equals the number of page segments
that carry both section markers and a parseable credit amount; a chunk
without a parseable credit amount yields no Transaction at all. -/
theorem c7_count_equals_parseable_chunks (text p fn : List Char) :
    (process_file text fn).length =
      ((split_pages text).filter
          (fun q => hasPaymentMarkers q && chunkHasParseableCredit q)).length ∧
    (parse_page_content p fn = none ↔ chunkHasParseableCredit p = false) := by
  constructor
  · unfold process_file
    rw [length_filterMap_eq_length_filter]
    have hcongr : ∀ q ∈ split_pages text,
        ((if hasPaymentMarkers q then parse_page_content q fn else none).isSome) =
          (hasPaymentMarkers q && chunkHasParseableCredit q) := by
      intro q _
      by_cases hm : hasPaymentMarkers q = true
      · rw [if_pos hm, hm, Bool.true_and, parse_page_content_isSome]
      · rw [if_neg hm, Bool.eq_false_iff.mpr hm, Bool.false_and]
        rfl
    rw [List.filter_congr hcongr]
  · have hs := parse_page_content_isSome p fn
    constructor
    · intro h
      rw [h] at hs
      exact hs.symm
    · intro h
      rw [h] at hs
      rcases hp : parse_page_content p fn with _ | t
      · rfl
      · rw [hp] at hs
        cases hs

/-! ## C6 (amended): positional assignment of repeated labels -/

/-- The capture of `\s*(\d+)` is a non-empty digit run. -/
theorem numTailSpan_group_ne_nil {cs g rest : List Char}
    (h : numTailSpan cs = some (g, rest)) : g ≠ [] := by
  unfold numTailSpan at h
  dsimp only at h
  split_ifs at h with hg
  have h2 : List.takeWhile isDigitC (List.dropWhile isWsC cs) = g :=
    congrArg Prod.fst (Option.some.inj h)
  rw [← h2]
  intro hnil
  rw [hnil] at hg
  exact hg rfl

/-- Every group `re.findall` returns for a `label\s*(\d+)` pattern is
non-empty. -/
theorem findallAux_numTail_ne_nil (label : List Char) :
    ∀ (fuel : Nat) (cs g : List Char),
      g ∈ findallAux label numTailSpan fuel cs → g ≠ [] := by
  intro fuel
  induction fuel with
  | zero => intro cs g hg; cases hg
  | succ fuel ih =>
    intro cs g hg
    cases cs with
    | nil => cases hg
    | cons c rest =>
      unfold findallAux at hg
      by_cases hp : label.isPrefixOf (c :: rest) = true
      · rw [if_pos hp] at hg
        rcases hm : numTailSpan ((c :: rest).drop label.length) with _ | ⟨g2, after⟩ <;>
          rw [hm] at hg <;> dsimp only at hg
        · exact ih rest g hg
        · rcases List.mem_cons.mp hg with rfl | hg2
          · exact numTailSpan_group_ne_nil hm
          · exact ih after g hg2
      · rw [if_neg hp] at hg
        dsimp only at hg
        exact ih rest g hg

theorem findallCompanyId_ne_nil {pt g : List Char} (hg : g ∈ findallCompanyId pt) :
    g ≠ [] :=
  findallAux_numTail_ne_nil "COMPANY ID:".data (pt.length + 1) pt g hg

/-- C6 amended: the first `ROUTING ID:` occurrence goes to the credit
field and the second to the debit field, with the routing debit field
left empty when there are fewer than two occurrences; the company id has
only a debit field, which takes the second occurrence when at least two
are present, falls back to the FIRST occurrence when there is exactly
one, and is empty exactly when the label is absent.  No occurrence count
causes an error (the parser is total). -/
theorem c6_positional_disambiguation (pt fn : List Char) (t : Transaction)
    (h : parse_page_content pt fn = some t) :
    t.routing_id_credit = (findallRoutingId pt).headD [] ∧
    t.routing_id_debit = ((findallRoutingId pt).drop 1).headD [] ∧
    ((findallRoutingId pt).length < 2 → t.routing_id_debit = []) ∧
    (∀ x y rest2, findallCompanyId pt = x :: y :: rest2 → t.company_id_debit = y) ∧
    ((findallCompanyId pt).length = 1 →
       t.company_id_debit = (findallCompanyId pt).headD []) ∧
    (t.company_id_debit = [] ↔ findallCompanyId pt = []) := by
  obtain ⟨_, h1, h2, h3, _⟩ := parse_page_content_some h
  refine ⟨h1, h2, ?_, ?_, ?_, ?_⟩
  · intro hl
    rw [h2]
    rcases hr : findallRoutingId pt with _ | ⟨x, _ | ⟨y, rest⟩⟩
    · rfl
    · rfl
    · rw [hr] at hl
      simp at hl
      omega
  · intro x y rest2 hxy
    rw [h3, hxy]
  · intro hl
    rw [h3]
    rcases hr : findallCompanyId pt with _ | ⟨x, _ | ⟨y, rest⟩⟩
    · rw [hr] at hl; cases hl
    · rfl
    · rw [hr] at hl
      simp at hl
  · constructor
    · intro hnil
      rw [h3] at hnil
      rcases hr : findallCompanyId pt with _ | ⟨x, _ | ⟨y, rest⟩⟩
      · rfl
      · rw [hr] at hnil
        dsimp only at hnil
        have hx : x ∈ findallCompanyId pt := by
          rw [hr]; exact List.mem_cons_self x []
        exact absurd hnil (findallCompanyId_ne_nil hx)
      · rw [hr] at hnil
        dsimp only at hnil
        have hy : y ∈ findallCompanyId pt := by
          rw [hr]; exact List.mem_cons_of_mem x (List.mem_cons_self y rest)
        exact absurd hnil (findallCompanyId_ne_nil hy)
    · intro hre
      rw [h3, hre]

/-- Witness for the amended C6 at concrete chunks: `chunkC6w` exercises
the routing-id positional policy, the single-company-id fallback and the
emptiness characterization; `chunkC6w2` (two `COMPANY ID:` occurrences)
exercises the second-occurrence rule. -/
theorem c6_positional_disambiguation_witness :
    txC6w.routing_id_credit = (findallRoutingId chunkC6w).headD [] ∧
    txC6w.routing_id_debit = ((findallRoutingId chunkC6w).drop 1).headD [] ∧
    txC6w.company_id_debit = (findallCompanyId chunkC6w).headD [] ∧
    (txC6w.company_id_debit = [] ↔ findallCompanyId chunkC6w = []) ∧
    txC6w2.company_id_debit = "66".data :=
  ⟨(c6_positional_disambiguation chunkC6w "f".data txC6w (by decide)).1,
   (c6_positional_disambiguation chunkC6w "f".data txC6w (by decide)).2.1,
   (c6_positional_disambiguation chunkC6w "f".data txC6w (by decide)).2.2.2.2.1 (by decide),
   (c6_positional_disambiguation chunkC6w "f".data txC6w (by decide)).2.2.2.2.2,
   (c6_positional_disambiguation chunkC6w2 "f".data txC6w2 (by decide)).2.2.2.1
     "55".data "66".data [] (by decide)⟩

/-! ## C10: failed amount parse leaves the central-pay state unchanged -/

/-- C10: in `PARSE_CENTRAL_PAY`, a row whose first cell matches the
payment-line pattern but whose last cell does not parse as a float
appends nothing and leaves both the state and the whole report
unchanged. -/
theorem c10_failed_amount_keeps_state (r : ReportData) (row : List (List Char))
    (sender checkNum : List Char)
    (h1 : (cleanRow row).isEmpty = false)
    (h2 : matchPaymentLine ((cleanRow row).headD []) = some (sender, checkNum))
    (h3 : pyFloat (removeCommas ((cleanRow row).getLastD [])) = none) :
    stepRow .PARSE_CENTRAL_PAY r row = (.PARSE_CENTRAL_PAY, r) := by
  unfold stepRow
  dsimp only
  rw [h1]
  simp only [Bool.false_eq_true, if_false]
  rw [h2, h3]

/-- Witness for C10 at a concrete row: a matching payment line whose
amount cell is not numeric leaves state and report unchanged. -/
theorem c10_failed_amount_keeps_state_witness :
    stepRow .PARSE_CENTRAL_PAY (initReport "f".data "i".data)
        ["Bad Pay (Check # - 77)".data, "x".data, "oops".data] =
      (.PARSE_CENTRAL_PAY, initReport "f".data "i".data) :=
  c10_failed_amount_keeps_state (initReport "f".data "i".data)
    ["Bad Pay (Check # - 77)".data, "x".data, "oops".data]
    "Bad Pay".data "77".data (by decide) (by decide) (by decide)

/-! ## C3: terminal validation of the AlignRx state machine -/

theorem scanCell_payment_amount (r : ReportData) (cell : List Char) :
    (scanCell r cell).payment_amount = r.payment_amount := by
  unfold scanCell
  dsimp only
  split_ifs <;> (try rfl) <;>
    rcases parseMDY (stripL (removeAll "Pay Date:".data cell)) with _ | ⟨m, d, y⟩ <;> rfl

theorem foldl_scanCell_payment_amount (cells : List (List Char)) :
    ∀ r : ReportData, (cells.foldl scanCell r).payment_amount = r.payment_amount := by
  induction cells with
  | nil => intro r; rfl
  | cons c cells ih =>
    intro r
    rw [List.foldl_cons, ih, scanCell_payment_amount]

/-- `DONE` is absorbing. -/
theorem stepRow_done (r : ReportData) (row : List (List Char)) :
    stepRow .DONE r row = (.DONE, r) := by
  unfold stepRow
  dsimp only
  split_ifs <;> rfl

/-- Every step either ends in `DONE` or leaves `payment_amount`
untouched (it is only written together with the transition to `DONE`). -/
theorem stepRow_pa (st : PState) (r : ReportData) (row : List (List Char)) :
    (stepRow st r row).1 = .DONE ∨
      (stepRow st r row).2.payment_amount = r.payment_amount := by
  unfold stepRow
  dsimp only
  cases st <;> repeat' split
  all_goals
    first
      | (left; rfl)
      | (right; rfl)
      | (right; exact foldl_scanCell_payment_amount _ r)

/-- The loop invariant: a truthy `payment_amount` certifies the machine
reached `DONE`. -/
theorem foldl_step_pa_done (rows : List (List (List Char))) :
    ∀ (st : PState) (r : ReportData),
      (truthyOptAmt r.payment_amount = true → st = .DONE) →
      truthyOptAmt ((rows.foldl (fun p row => stepRow p.1 p.2 row)
          (st, r)).2.payment_amount) = true →
      (rows.foldl (fun p row => stepRow p.1 p.2 row) (st, r)).1 = .DONE := by
  induction rows with
  | nil => intro st r h ht; exact h ht
  | cons row rows ih =>
    intro st r h ht
    rw [List.foldl_cons] at ht ⊢
    dsimp only at ht ⊢
    rcases hs : stepRow st r row with ⟨st', r'⟩
    rw [hs] at ht
    refine ih st' r' ?_ ht
    intro htr'
    rcases stepRow_pa st r row with hd | hp
    · rw [hs] at hd; exact hd
    · rw [hs] at hp
      dsimp only at hp
      rw [hp] at htr'
      have hst : st = .DONE := h htr'
      subst hst
      rw [stepRow_done] at hs
      exact (congrArg Prod.fst hs).symm

theorem runRows_pa_done (src id : List Char) (rows : List (List (List Char))) :
    truthyOptAmt (runRows src id rows).2.payment_amount = true →
      (runRows src id rows).1 = .DONE := by
  unfold runRows
  exact foldl_step_pa_done rows .SCANNING (initReport src id) (fun h => by cases h)

/-- All three required fields are truthy when the missing-field list is
empty. -/
theorem missingFields_nil {r : ReportData} (h : missingFields r = []) :
    truthyOptStr r.date = true ∧ truthyOptStr r.destination = true ∧
      truthyOptAmt r.payment_amount = true := by
  unfold missingFields at h
  refine ⟨?_, ?_, ?_⟩ <;> by_contra hb
  · rw [Bool.eq_false_iff.mpr hb] at h
    simp at h
  · rw [Bool.eq_false_iff.mpr hb] at h
    simp at h
  · rw [Bool.eq_false_iff.mpr hb] at h
    simp at h

/-- C3: `parse_excel_report` never returns a report with `date`,
`destination` or `payment_amount` missing: a returned report has all
three populated (Python-truthy) and the machine ended in `DONE`; and
unless the duplicate check fires, the outcome is exactly either that, or
a `ValueError` carrying the non-empty list of missing fields together
with the terminal state. -/
theorem c3_terminal_validation (rows : List (List (List Char))) (src id : List Char)
    (dup : DupCheck) (r : ReportData) :
    (parse_excel_report rows src id dup = .ok r →
       truthyOptStr r.date = true ∧ truthyOptStr r.destination = true ∧
       truthyOptAmt r.payment_amount = true ∧ (runRows src id rows).1 = .DONE) ∧
    (dup ≠ .found →
       (parse_excel_report rows src id dup = .ok (runRows src id rows).2 ∧
          missingFields (runRows src id rows).2 = []) ∨
       (parse_excel_report rows src id dup =
            .validationError (missingFields (runRows src id rows).2)
              (runRows src id rows).1 ∧
          missingFields (runRows src id rows).2 ≠ [])) := by
  have hdone := runRows_pa_done src id rows
  constructor
  · intro h
    unfold parse_excel_report at h
    rcases hrr : runRows src id rows with ⟨st, rep⟩
    rw [hrr] at h hdone
    dsimp only at h hdone ⊢
    rcases hml : missingFields rep with _ | ⟨f, fs⟩
    · obtain ⟨h1, h2, h3⟩ := missingFields_nil hml
      rw [hml] at h
      simp only [List.isEmpty_nil, Bool.not_true, Bool.false_eq_true, if_false] at h
      cases dup
      · cases h
      · obtain rfl := (ParseResult.ok.inj h).symm
        exact ⟨h1, h2, h3, hdone h3⟩
      · obtain rfl := (ParseResult.ok.inj h).symm
        exact ⟨h1, h2, h3, hdone h3⟩
    · rw [hml] at h
      simp only [List.isEmpty_cons, Bool.not_false, if_true] at h
      cases h
  · intro hne
    unfold parse_excel_report
    rcases hrr : runRows src id rows with ⟨st, rep⟩
    dsimp only
    rcases hml : missingFields rep with _ | ⟨f, fs⟩
    · left
      refine ⟨?_, rfl⟩
      simp only [List.isEmpty_nil, Bool.not_true, Bool.false_eq_true, if_false]
      cases dup
      · exact absurd rfl hne
      · rfl
      · rfl
    · right
      refine ⟨?_, by simp⟩
      simp only [List.isEmpty_cons, Bool.not_false, if_true]

/-- Witness for C3 at the worked example rows (duplicate check negative):
the outcome is the fully-populated report with the machine in `DONE`. -/
theorem c3_terminal_validation_witness :
    (parse_excel_report rowsC3 "f.xls".data "id0".data .notFound =
        .ok (runRows "f.xls".data "id0".data rowsC3).2 ∧
      missingFields (runRows "f.xls".data "id0".data rowsC3).2 = []) ∨
    (parse_excel_report rowsC3 "f.xls".data "id0".data .notFound =
        .validationError (missingFields (runRows "f.xls".data "id0".data rowsC3).2)
          (runRows "f.xls".data "id0".data rowsC3).1 ∧
      missingFields (runRows "f.xls".data "id0".data rowsC3).2 ≠ []) :=
  (c3_terminal_validation rowsC3 "f.xls".data "id0".data .notFound
      (runRows "f.xls".data "id0".data rowsC3).2).2 (by decide)

/-- C4: once validation has passed, a positive duplicate lookup makes
`parse_excel_report` raise the distinct `DuplicateReportError` (the
report is not returned), an error in the lookup itself is caught and the
report is returned (the sole fail-open branch), and the duplicate
rejection happens in exactly the lookup-positive case. -/
theorem c4_composite_key_duplicate_policy (rows : List (List (List Char)))
    (src id : List Char)
    (h : missingFields (runRows src id rows).2 = []) :
    parse_excel_report rows src id .found = .duplicateReportError ∧
    parse_excel_report rows src id .errored = .ok (runRows src id rows).2 ∧
    parse_excel_report rows src id .notFound = .ok (runRows src id rows).2 ∧
    (∀ dup : DupCheck,
       parse_excel_report rows src id dup = .duplicateReportError ↔ dup = .found) := by
  unfold parse_excel_report
  rcases hrr : runRows src id rows with ⟨st, rep⟩
  rw [hrr] at h
  dsimp only at h ⊢
  rw [h]
  refine ⟨by simp, by simp, by simp, fun dup => ?_⟩
  cases dup <;> simp

/-- Witness for C4 at the worked example rows. -/
theorem c4_composite_key_duplicate_policy_witness :
    parse_excel_report rowsC3 "f.xls".data "id0".data .found = .duplicateReportError ∧
    parse_excel_report rowsC3 "f.xls".data "id0".data .errored =
      .ok (runRows "f.xls".data "id0".data rowsC3).2 :=
  ⟨(c4_composite_key_duplicate_policy rowsC3 "f.xls".data "id0".data (by decide)).1,
   (c4_composite_key_duplicate_policy rowsC3 "f.xls".data "id0".data (by decide)).2.1⟩

/-- C5: with the file-level checks negative and a non-empty extraction,
a positive trace-number check does not raise — the result is returned
with `chs_duplicate = true` and still carries the full transaction set —
and an error inside the trace-number check does not abort the parse
either (`chs_duplicate` stays `false`).  No trace-check outcome can
produce `DuplicateReportError` or `ValueError`. -/
theorem c5_trace_duplicate_partial_success {α : Type} (chsFile masterFile : Bool)
    (allTx chsTx : List α) (traceNums : List (List Char)) (filename : List Char)
    (h1 : chsFile = false) (h2 : masterFile = false) (h3 : allTx.isEmpty = false) :
    (traceNums.isEmpty = false →
       parse_edi_file chsFile masterFile (some (allTx, chsTx, traceNums)) (.ok true)
           filename =
         .ok { all_transactions := allTx, chs_transactions := chsTx,
               file_name := filename, all_transaction_count := allTx.length,
               chs_transaction_count := chsTx.length, chs_duplicate := true }) ∧
    (parse_edi_file chsFile masterFile (some (allTx, chsTx, traceNums)) (.error ())
         filename =
       .ok { all_transactions := allTx, chs_transactions := chsTx,
             file_name := filename, all_transaction_count := allTx.length,
             chs_transaction_count := chsTx.length, chs_duplicate := false }) ∧
    (∀ tc : Except Unit Bool,
       parse_edi_file chsFile masterFile (some (allTx, chsTx, traceNums)) tc filename ≠
           .duplicateReportError ∧
       parse_edi_file chsFile masterFile (some (allTx, chsTx, traceNums)) tc filename ≠
           .valueError) := by
  subst h1 h2
  unfold parse_edi_file
  simp only [Bool.false_eq_true, if_false, h3]
  refine ⟨fun htn => ?_, ?_, fun tc => ?_⟩
  · rw [htn]
    rfl
  · rcases htn : traceNums.isEmpty <;> simp [htn]
  · rcases tc with _ | b <;> rcases htn : traceNums.isEmpty <;> simp [htn]

/-- Witness for C5 at concrete transaction lists. -/
theorem c5_trace_duplicate_partial_success_witness :
    parse_edi_file false false
        (some (["t1".data, "t2".data], ["t1".data], ["TRACE9".data]))
        (Except.ok true) "f.pdf".data =
      .ok { all_transactions := ["t1".data, "t2".data],
            chs_transactions := ["t1".data],
            file_name := "f.pdf".data, all_transaction_count := 2,
            chs_transaction_count := 1, chs_duplicate := true } :=
  (c5_trace_duplicate_partial_success false false ["t1".data, "t2".data] ["t1".data]
      ["TRACE9".data] "f.pdf".data rfl rfl (by decide)).1 (by decide)
